import Mathlib

/-!
Verification of the `tauri-invoke-http` bridge (`src/lib.rs`).

The file shallowly embeds the source: `cors` models the free function
`cors`; the correlation store (`Arc<Mutex<HashMap<u32, Request>>>`) is
modelled as an association list with HashMap `insert`/`remove` semantics;
`handleRequest` models the body of the per-request loop in `Invoke::start`;
`startCompletion` models the completion closure installed inline by
`Invoke::start`, and `responderCompletion` the closure returned by
`Invoke::responder`.  Rust panics (`unwrap`, `expect`, `unimplemented!`)
are modelled as explicit `panicked` outcomes.  External collaborators
(surface lookup via `get_webview_window`, `serde_json::from_str` on the
envelope, `Url::parse`) are parameters of the listener model, exactly as
the spec scopes them out; `serde_json::to_string` on result values is
modelled concretely by `Json.serialize`.
-/

namespace TauriInvokeHttp

/-- JSON values, modelling `serde_json::Value` (the codec is an external
collaborator; numbers are modelled as integers, which is all the claims
need). -/
inductive Json where
  | null
  | bool (b : Bool)
  | num (n : Int)
  | str (s : String)
  | arr (elems : List Json)
  | obj (fields : List (String × Json))

/-- Escape one character for a JSON string literal. -/
def escapeChar (c : Char) : String :=
  if c = '"' then "\\\""
  else if c = '\\' then "\\\\"
  else if c = '\n' then "\\n"
  else if c = '\t' then "\\t"
  else if c = '\r' then "\\r"
  else String.singleton c

/-- Escape a string for inclusion in a JSON document. -/
def escapeString (s : String) : String :=
  String.join (s.toList.map escapeChar)

/-- A JSON string literal: quotes around the escaped content. -/
def jsonQuote (s : String) : String :=
  "\"" ++ escapeString s ++ "\""

mutual

/-- Serialization of a JSON value, modelling `serde_json::to_string`. -/
def Json.serialize : Json → String
  | .null => "null"
  | .bool true => "true"
  | .bool false => "false"
  | .num n => toString n
  | .str s => jsonQuote s
  | .arr xs => "[" ++ serializeElems xs ++ "]"
  | .obj fs => "\x7b" ++ serializeFields fs ++ "\x7d"

/-- Comma-separated serialization of array elements. -/
def serializeElems : List Json → String
  | [] => ""
  | [x] => Json.serialize x
  | x :: xs => Json.serialize x ++ "," ++ serializeElems xs

/-- Comma-separated serialization of object fields. -/
def serializeFields : List (String × Json) → String
  | [] => ""
  | [(k, v)] => jsonQuote k ++ ":" ++ Json.serialize v
  | (k, v) :: fs => jsonQuote k ++ ":" ++ Json.serialize v ++ "," ++ serializeFields fs

end

/-- HTTP methods (`tiny_http::Method`); only the distinction with
`Options` matters to the source. -/
inductive Method where
  | options
  | get
  | post
  | put
  | delete
  | head
  | patch
  | other (s : String)
deriving DecidableEq, Repr

/-- ASCII lower-casing of one character. -/
def asciiLower (c : Char) : Char :=
  if 65 ≤ c.toNat ∧ c.toNat ≤ 90 then Char.ofNat (c.toNat + 32) else c

/-- Case-insensitive header-field comparison, modelling
`tiny_http::HeaderField::equiv` (ASCII-case-insensitive equality). -/
def fieldEquiv (a b : String) : Bool :=
  a.toList.map asciiLower == b.toList.map asciiLower

/-- Rust's `str::split` on one separator character, applied to the
character list of the string: the substrings between separator
occurrences (leading, trailing and adjacent separators yield empty
pieces, as in Rust). -/
def splitChar (sep : Char) : List Char → List String
  | [] => [""]
  | c :: rest =>
    if c = sep then "" :: splitChar sep rest
    else
      match splitChar sep rest with
      | [] => [String.singleton c]
      | s :: ss => (String.singleton c ++ s) :: ss

/-- `url.split('/')` collected into a vector (line 73). -/
def splitOnChar (sep : Char) (s : String) : List String :=
  splitChar sep s.toList

/-- An inbound HTTP request (`tiny_http::Request`): method, raw URL,
ordered header list, and the body already read as a string
(`read_to_string`). -/
structure HttpRequest where
  method : Method
  url : String
  headers : List (String × String)
  body : String
deriving DecidableEq, Repr

/-- A response body: `Response::from_string` vs `Response::from_data`. -/
inductive RespBody where
  | ofString (s : String)
  | ofData (d : List Nat)
deriving DecidableEq, Repr

/-- An outbound HTTP response (`tiny_http::Response`). -/
structure HttpResponse where
  status : Nat
  headers : List (String × String)
  body : RespBody
deriving DecidableEq, Repr

/-- `Response::empty(status)`. -/
def Response.empty (status : Nat) : HttpResponse :=
  { status := status, headers := [], body := .ofData [] }

/-- `Response::from_string(s)` (status defaults to 200). -/
def Response.from_string (s : String) : HttpResponse :=
  { status := 200, headers := [], body := .ofString s }

/-- `Response::from_data(d)` (status defaults to 200). -/
def Response.from_data (d : List Nat) : HttpResponse :=
  { status := 200, headers := [], body := .ofData d }

/-- `Response::with_status_code`. -/
def HttpResponse.with_status_code (r : HttpResponse) (s : Nat) : HttpResponse :=
  { r with status := s }

/-- `Response::add_header`: appends one header. -/
def HttpResponse.add_header (r : HttpResponse) (h : String × String) : HttpResponse :=
  { r with headers := r.headers ++ [h] }

/-- The `cors` function of `src/lib.rs` (lines 27-39): optionally add
`Access-Control-Allow-Origin`, then always add the two fixed headers. -/
def cors (request : HttpRequest) (r : HttpResponse) (allowed_origins : List String) :
    HttpResponse :=
  let r :=
    if allowed_origins.any (fun s => s == "*") then
      r.add_header ("Access-Control-Allow-Origin", "*")
    else
      match request.headers.find? (fun h => fieldEquiv h.1 "Origin") with
      | some origin =>
        if allowed_origins.any (fun o => o == origin.2) then
          r.add_header ("Access-Control-Allow-Origin", origin.2)
        else r
      | none => r
  (r.add_header ("Access-Control-Allow-Headers", "*")).add_header
    ("Access-Control-Allow-Methods", "POST, OPTIONS")

/-- The correlation store `HashMap<u32, Request>`, modelled as an
association list (first binding for a key is its value). -/
abbrev Store := List (Nat × HttpRequest)

/-- `HashMap` lookup. -/
def lookupStore (s : Store) (k : Nat) : Option HttpRequest :=
  (s.find? (fun p => p.1 == k)).map (fun p => p.2)

/-- `HashMap::insert`: overwrite any prior binding for the key. -/
def storeInsert (s : Store) (k : Nat) (v : HttpRequest) : Store :=
  (k, v) :: s.filter (fun p => p.1 != k)

/-- `HashMap::remove`: return the binding, if any, and the store without
it. -/
def storeRemove (s : Store) (k : Nat) : Option HttpRequest × Store :=
  match s.find? (fun p => p.1 == k) with
  | some p => (some p.2, s.filter (fun q => q.1 != k))
  | none => (none, s)

theorem storeRemove_fst (s : Store) (k : Nat) :
    (storeRemove s k).1 = lookupStore s k := by
  unfold storeRemove lookupStore
  cases s.find? (fun p => p.1 == k) <;> simp

theorem find?_key_filtered {α β : Type} [BEq α] [LawfulBEq α]
    (l : List (α × β)) (k : α) :
    (l.filter (fun p => p.1 != k)).find? (fun p => p.1 == k) = none := by
  rw [List.find?_filter, List.find?_eq_none]
  intro x _
  simp

theorem find?_other_key_filtered {α β : Type} [BEq α] [LawfulBEq α]
    (l : List (α × β)) (k n : α) (h : ¬ n = k) :
    (l.filter (fun p => p.1 != k)).find? (fun p => p.1 == n)
      = l.find? (fun p => p.1 == n) := by
  rw [List.find?_filter]
  congr 1
  funext p
  by_cases hp : p.1 = n
  · subst hp
    simp [h]
  · simp [hp]

/-- `InvokeBody` (tauri): structured JSON or raw bytes. -/
inductive InvokeBody where
  | json (v : Json)
  | raw (bytes : List Nat)

/-- `InvokeResponse` (tauri): a success body or an error value
(`InvokeError` wraps a JSON value). -/
inductive InvokeResponse where
  | ok (body : InvokeBody)
  | err (e : Json)

/-- The deserialized request envelope (`RecievedMessage` in the source,
spelling kept): `cmd`, `callback`, `error`, `payload`. -/
structure RecievedMessage where
  cmd : String
  callback : Nat
  error : Nat
  payload : Json

/-- One `String`-keyed `HashMap` insertion used while collecting request
headers (`collect::<HashMap<_, _>>()`): drop any prior binding for the
exact key, then append the new one. -/
def hashMapInsert (m : List (String × String)) (k v : String) :
    List (String × String) :=
  m.filter (fun p => p.1 != k) ++ [(k, v)]

/-- Collecting the request's `(field, value)` pairs into a
`HashMap<String, String>` (lines 100-106): later occurrences of the same
exact field-name string overwrite earlier ones. -/
def collectHashMap (hs : List (String × String)) : List (String × String) :=
  hs.foldl (fun m kv => hashMapInsert m kv.1 kv.2) []

/-- The `invoke_key` the source fills with a `FIXME` marker built from
`file!()`/`line!()`. -/
def invokeKeyFixme : String := "FIXME: src/lib.rs:107:"

/-- `InvokeRequest` (tauri): the decoded invocation handed to
`window.on_message`.  The parsed `Url` is modelled by the string the
URL parser returned; the `headers` field holds the collected
string-keyed map that the source feeds into the (external) case-insensitive
`HeaderMap` conversion. -/
structure InvokeRequest where
  cmd : String
  callback : Nat
  error : Nat
  url : String
  body : InvokeBody
  headers : List (String × String)
  invoke_key : String

/-- First `Content-Type` header value, defaulting to `application/json`
(lines 77-82). -/
def contentTypeOf (request : HttpRequest) : String :=
  ((request.headers.find? (fun h => fieldEquiv h.1 "Content-Type")).map
    (fun h => h.2)).getD "application/json"

/-- First `Origin` header value, if any (lines 87-92). -/
def originOf (request : HttpRequest) : Option String :=
  (request.headers.find? (fun h => fieldEquiv h.1 "Origin")).map (fun h => h.2)

/-- Outcome of one command completion: the closure either panics
(`remove(..).unwrap()` on a missing id) or responds on the original
request's connection. -/
inductive DispatchOutcome where
  | panicked
  | responded (original : HttpRequest) (resp : HttpResponse)

/-- Whether an `Except` value is a success, modelling `Result::is_ok`. -/
def exceptIsOk {ε α : Type} : Except ε α → Bool
  | .ok _ => true
  | .error _ => false

/-- The completion closure installed inline by `Invoke::start`
(lines 116-137): remove the pending request by callback id (panicking if
absent), map the outcome to a status and body, attach CORS headers against
the original request, and respond. -/
def startCompletion (requests : Store) (allowed_origins : List String)
    (response : InvokeResponse) (callback : Nat) : DispatchOutcome × Store :=
  match storeRemove requests callback with
  | (none, s) => (.panicked, s)
  | (some request, s) =>
    let response : Except Json InvokeBody :=
      match response with
      | .ok r => .ok r
      | .err e => .error e
    let status : Nat := if exceptIsOk response then 200 else 400
    let r :=
      (match response with
        | .ok (.json r) => Response.from_string (Json.serialize r)
        | .ok (.raw r) => Response.from_data r
        | .error e => Response.from_string (Json.serialize e)).with_status_code status
    let r := cors request r allowed_origins
    (.responded request r, s)

/-- The closure returned by `Invoke::responder` (lines 151-172), translated
independently of `startCompletion`; the only textual difference in the
source is a `clone()` of the raw bytes, which is the identity here. -/
def responderCompletion (requests : Store) (allowed_origins : List String)
    (response : InvokeResponse) (callback : Nat) : DispatchOutcome × Store :=
  match storeRemove requests callback with
  | (none, s) => (.panicked, s)
  | (some request, s) =>
    let response : Except Json InvokeBody :=
      match response with
      | .ok r => .ok r
      | .err e => .error e
    let status : Nat := if exceptIsOk response then 200 else 400
    let r :=
      (match response with
        | .ok (.json r) => Response.from_string (Json.serialize r)
        | .ok (.raw r) => Response.from_data r
        | .error e => Response.from_string (Json.serialize e)).with_status_code status
    let r := cors request r allowed_origins
    (.responded request r, s)

/-- Outcome of the listener's handling of one incoming request: an
immediate response (`OPTIONS` or 404), a dispatched invocation
(`window.on_message` called), or a panic that kills the listener thread. -/
inductive HandleOutcome where
  | responded (resp : HttpResponse)
  | dispatched (inv : InvokeRequest)
  | panicked

/-- Result of handling one request: the outcome and the store afterwards. -/
structure HandleResult where
  outcome : HandleOutcome
  store : Store

/-- The body of the per-request loop of `Invoke::start` (lines 66-143).
`get_webview_window` is the surface lookup, `from_str` the envelope
deserializer (`serde_json::from_str::<RecievedMessage>`), and `url_parse`
the URL parser (`Url::parse`) — all external collaborators taken as
parameters; `none` from a parser models its failure, which the source
turns into a panic via `unwrap`/`expect`. -/
def handleRequest (get_webview_window : String → Bool)
    (from_str : String → Option RecievedMessage)
    (url_parse : String → Option String)
    (allowed_origins : List String)
    (requests : Store) (request : HttpRequest) : HandleResult :=
  if request.method = .options then
    let r := cors request (Response.empty 200) allowed_origins
    { outcome := .responded r, store := requests }
  else
    let url := request.url
    let pieces := splitOnChar '/' url
    match pieces[1]? with
    | none => { outcome := .panicked, store := requests }
    | some window_label =>
      if get_webview_window window_label then
        let content_type := contentTypeOf request
        if content_type == "application/json" then
          let content := request.body
          match originOf request with
          | none => { outcome := .panicked, store := requests }
          | some origin =>
            match from_str content with
            | none => { outcome := .panicked, store := requests }
            | some message =>
              match url_parse origin with
              | none => { outcome := .panicked, store := requests }
              | some u =>
                let payload : InvokeRequest :=
                  { cmd := message.cmd
                    callback := message.callback
                    error := message.error
                    url := u
                    body := .json message.payload
                    headers := collectHashMap request.headers
                    invoke_key := invokeKeyFixme }
                let req_key := payload.callback
                { outcome := .dispatched payload
                  store := storeInsert requests req_key request }
        else
          { outcome := .panicked, store := requests }
      else
        let r := cors request (Response.empty 404) allowed_origins
        { outcome := .responded r, store := requests }

/-- The listener accept loop (`for request in server.incoming_requests()`):
requests are processed sequentially; a panic unwinds the spawned thread,
so no later request is served. -/
def runListener (get_webview_window : String → Bool)
    (from_str : String → Option RecievedMessage)
    (url_parse : String → Option String)
    (allowed_origins : List String) :
    Store → List HttpRequest → List HandleOutcome × Store
  | requests, [] => ([], requests)
  | requests, r :: rs =>
    let res := handleRequest get_webview_window from_str url_parse
      allowed_origins requests r
    match res.outcome with
    | .panicked => ([.panicked], res.store)
    | o =>
      let rest := runListener get_webview_window from_str url_parse
        allowed_origins res.store rs
      (o :: rest.1, rest.2)

/-- First response header with the given exact name. -/
def getHeader (hs : List (String × String)) (name : String) : Option String :=
  (hs.find? (fun h => h.1 == name)).map (fun h => h.2)

/-- The `Access-Control-Allow-Origin` value a response carries, if any. -/
def responseACAO (r : HttpResponse) : Option String :=
  getHeader r.headers "Access-Control-Allow-Origin"

/-- Claim C7: the correlation store stores under the id with last-write-wins
overwrite, and take-and-remove returns the stored exchange and removes it,
so a second take-and-remove of the same id without an intervening insert
returns not-found. -/
theorem correlation_store_contract (s : Store) (k : Nat) (v : HttpRequest) :
    lookupStore (storeInsert s k v) k = some v
    ∧ (storeRemove s k).1 = lookupStore s k
    ∧ lookupStore (storeRemove s k).2 k = none
    ∧ (storeRemove (storeRemove s k).2 k).1 = none := by
  refine ⟨?_, storeRemove_fst s k, ?_, ?_⟩
  · simp [lookupStore, storeInsert]
  · unfold storeRemove
    cases hf : s.find? (fun p => p.1 == k) with
    | none =>
      simpa [lookupStore] using hf
    | some p =>
      simp only [lookupStore]
      rw [find?_key_filtered]
      rfl
  · rw [storeRemove_fst]
    unfold storeRemove
    cases hf : s.find? (fun p => p.1 == k) with
    | none =>
      simpa [lookupStore] using hf
    | some p =>
      simp only [lookupStore]
      rw [find?_key_filtered]
      rfl

theorem cors_status (request : HttpRequest) (r : HttpResponse)
    (allowed_origins : List String) :
    (cors request r allowed_origins).status = r.status := by
  unfold cors
  split
  · rfl
  · split
    · split <;> rfl
    · rfl

theorem cors_body (request : HttpRequest) (r : HttpResponse)
    (allowed_origins : List String) :
    (cors request r allowed_origins).body = r.body := by
  unfold cors
  split
  · rfl
  · split
    · split <;> rfl
    · rfl

theorem cors_allow_headers (request : HttpRequest) (r : HttpResponse)
    (allowed_origins : List String) :
    ("Access-Control-Allow-Headers", "*") ∈ (cors request r allowed_origins).headers := by
  unfold cors
  simp only [HttpResponse.add_header, List.mem_append]
  split
  · simp
  · split
    · split <;> simp
    · simp

theorem cors_allow_methods (request : HttpRequest) (r : HttpResponse)
    (allowed_origins : List String) :
    ("Access-Control-Allow-Methods", "POST, OPTIONS")
      ∈ (cors request r allowed_origins).headers := by
  unfold cors
  simp only [HttpResponse.add_header, List.mem_append]
  split
  · simp
  · split
    · split <;> simp
    · simp

/-- Claim C2: with the wildcard in the allow-list every response carries
`Access-Control-Allow-Origin: *`; without it, the response echoes the
request's `Origin` value exactly when that value equals an allow-list
entry, and carries no such header otherwise. -/
theorem cors_allow_origin_policy (request : HttpRequest) (r0 : HttpResponse)
    (allowed_origins : List String) (h : responseACAO r0 = none) :
    ("*" ∈ allowed_origins →
      responseACAO (cors request r0 allowed_origins) = some "*")
    ∧ ("*" ∉ allowed_origins →
      responseACAO (cors request r0 allowed_origins)
        = (originOf request).bind
            (fun v => if v ∈ allowed_origins then some v else none)) := by
  have h0 : r0.headers.find? (fun p => p.1 == "Access-Control-Allow-Origin") = none := by
    simpa [responseACAO, getHeader] using h
  constructor
  · intro hstar
    have ha : allowed_origins.any (fun s => s == "*") = true := by
      simp only [List.any_eq_true, beq_iff_eq]
      exact ⟨"*", hstar, rfl⟩
    simp [cors, ha, responseACAO, getHeader, HttpResponse.add_header,
      List.find?_append, h0]
  · intro hstar
    have ha : allowed_origins.any (fun s => s == "*") = false := by
      rw [List.any_eq_false]
      intro x hx
      simp only [beq_iff_eq]
      intro he
      exact hstar (he ▸ hx)
    cases ho : request.headers.find? (fun p => fieldEquiv p.1 "Origin") with
    | none =>
      simp [cors, ha, ho, originOf, responseACAO, getHeader,
        HttpResponse.add_header, List.find?_append, h0]
    | some origin =>
      by_cases hmem : origin.2 ∈ allowed_origins
      · have hany : allowed_origins.any (fun o => o == origin.2) = true := by
          simp only [List.any_eq_true, beq_iff_eq]
          exact ⟨origin.2, hmem, rfl⟩
        simp [cors, ha, ho, hany, originOf, responseACAO, getHeader,
          HttpResponse.add_header, List.find?_append, h0, hmem]
      · have hany : allowed_origins.any (fun o => o == origin.2) = false := by
          rw [List.any_eq_false]
          intro x hx
          simp only [beq_iff_eq]
          intro he
          exact hmem (he ▸ hx)
        simp [cors, ha, ho, hany, originOf, responseACAO, getHeader,
          HttpResponse.add_header, List.find?_append, h0, hmem]

/-- A surface lookup that knows only the window labelled `main`. -/
def demoWindow (lbl : String) : Bool := lbl == "main"

/-- A concrete request envelope. -/
def demoEnvelope : String :=
  "\x7b\"cmd\":\"greet\",\"callback\":1,\"error\":2,\"payload\":null\x7d"

/-- A concrete envelope deserializer that accepts exactly `demoEnvelope`. -/
def demoParse (s : String) : Option RecievedMessage :=
  if s == demoEnvelope then
    some { cmd := "greet", callback := 1, error := 2, payload := .null }
  else none

/-- A concrete URL parser that accepts every string. -/
def demoUrlParse (s : String) : Option String := some s

/-- A well-formed POST to the `main` surface. -/
def demoPostRequest : HttpRequest :=
  { method := .post
    url := "/main"
    headers := [("Origin", "http://tauri.localhost")]
    body := demoEnvelope }

/-- A preflight request. -/
def demoOptionsRequest : HttpRequest :=
  { method := .options, url := "/main", headers := [], body := "" }

theorem cors_allow_origin_policy_witness :
    responseACAO (Response.empty 200) = none
    ∧ (("*" ∈ ["*"] →
        responseACAO (cors demoPostRequest (Response.empty 200) ["*"]) = some "*")
      ∧ ("*" ∉ ["*"] →
        responseACAO (cors demoPostRequest (Response.empty 200) ["*"])
          = (originOf demoPostRequest).bind
              (fun v => if v ∈ ["*"] then some v else none))) :=
  ⟨rfl, cors_allow_origin_policy demoPostRequest (Response.empty 200) ["*"] rfl⟩

/-- Claim C5: every `OPTIONS` request, regardless of path, headers or body,
gets a 200 response with empty body and the two fixed CORS headers, and
nothing is inserted into the correlation store. -/
theorem options_preflight (get_webview_window : String → Bool)
    (from_str : String → Option RecievedMessage)
    (url_parse : String → Option String)
    (allowed_origins : List String) (requests : Store) (request : HttpRequest)
    (h : request.method = .options) :
    (handleRequest get_webview_window from_str url_parse allowed_origins
      requests request).store = requests
    ∧ ∃ resp,
      (handleRequest get_webview_window from_str url_parse allowed_origins
        requests request).outcome = .responded resp
      ∧ resp.status = 200
      ∧ resp.body = .ofData []
      ∧ ("Access-Control-Allow-Headers", "*") ∈ resp.headers
      ∧ ("Access-Control-Allow-Methods", "POST, OPTIONS") ∈ resp.headers := by
  refine ⟨by simp [handleRequest, h], cors request (Response.empty 200) allowed_origins,
    by simp [handleRequest, h], ?_, ?_, cors_allow_headers _ _ _, cors_allow_methods _ _ _⟩
  · rw [cors_status]
    rfl
  · rw [cors_body]
    rfl

theorem options_preflight_witness :
    demoOptionsRequest.method = .options
    ∧ ((handleRequest demoWindow demoParse demoUrlParse ["*"] []
        demoOptionsRequest).store = []
      ∧ ∃ resp,
        (handleRequest demoWindow demoParse demoUrlParse ["*"] []
          demoOptionsRequest).outcome = .responded resp
        ∧ resp.status = 200
        ∧ resp.body = .ofData []
        ∧ ("Access-Control-Allow-Headers", "*") ∈ resp.headers
        ∧ ("Access-Control-Allow-Methods", "POST, OPTIONS") ∈ resp.headers) :=
  ⟨rfl, options_preflight demoWindow demoParse demoUrlParse ["*"] []
    demoOptionsRequest rfl⟩

/-- Claim C6: a non-`OPTIONS` request whose first path segment resolves to
no known surface gets a 404 response carrying the CORS headers, and the
correlation store is left unchanged. -/
theorem unknown_surface_404 (get_webview_window : String → Bool)
    (from_str : String → Option RecievedMessage)
    (url_parse : String → Option String)
    (allowed_origins : List String) (requests : Store) (request : HttpRequest)
    (lbl : String)
    (hm : request.method ≠ .options)
    (hp : (splitOnChar '/' request.url)[1]? = some lbl)
    (hw : get_webview_window lbl = false) :
    (handleRequest get_webview_window from_str url_parse allowed_origins
      requests request).store = requests
    ∧ ∃ resp,
      (handleRequest get_webview_window from_str url_parse allowed_origins
        requests request).outcome = .responded resp
      ∧ resp.status = 404
      ∧ ("Access-Control-Allow-Headers", "*") ∈ resp.headers
      ∧ ("Access-Control-Allow-Methods", "POST, OPTIONS") ∈ resp.headers := by
  refine ⟨by simp [handleRequest, hm, hp, hw],
    cors request (Response.empty 404) allowed_origins,
    by simp [handleRequest, hm, hp, hw], ?_,
    cors_allow_headers _ _ _, cors_allow_methods _ _ _⟩
  rw [cors_status]
  rfl

/-- A request for a surface that does not exist. -/
def demoUnknownRequest : HttpRequest :=
  { method := .post, url := "/ghost", headers := [], body := "" }

theorem unknown_surface_404_witness :
    demoUnknownRequest.method ≠ .options
    ∧ (splitOnChar '/' demoUnknownRequest.url)[1]? = some "ghost"
    ∧ demoWindow "ghost" = false
    ∧ ((handleRequest demoWindow demoParse demoUrlParse ["*"] []
        demoUnknownRequest).store = []
      ∧ ∃ resp,
        (handleRequest demoWindow demoParse demoUrlParse ["*"] []
          demoUnknownRequest).outcome = .responded resp
        ∧ resp.status = 404
        ∧ ("Access-Control-Allow-Headers", "*") ∈ resp.headers
        ∧ ("Access-Control-Allow-Methods", "POST, OPTIONS") ∈ resp.headers) :=
  ⟨by decide, by decide, by decide,
    unknown_surface_404 demoWindow demoParse demoUrlParse ["*"] []
      demoUnknownRequest "ghost" (by decide) (by decide) (by decide)⟩

/-- Claim C9: the completion closure installed inline by `start` and the
closure returned by `responder` are behaviorally equal: on every completion
event and store state they remove the same entry, produce the same status,
body and CORS headers, and leave the store in the same state. -/
theorem start_responder_equivalent (store : Store) (allowed_origins : List String)
    (response : InvokeResponse) (callback : Nat) :
    startCompletion store allowed_origins response callback
      = responderCompletion store allowed_origins response callback := rfl

/-- Claim C1 (amended): a completion for a correlation id absent from the
store completes no connection and leaves the store (hence every other
pending exchange) unchanged, but the dispatcher closure panics — the
`remove(..).unwrap()` fails — instead of dropping the completion
silently. -/
theorem unknown_completion_panics (store : Store) (allowed_origins : List String)
    (response : InvokeResponse) (callback : Nat)
    (h : lookupStore store callback = none) :
    responderCompletion store allowed_origins response callback
      = (.panicked, store) := by
  have hf : store.find? (fun p => p.1 == callback) = none := by
    simpa [lookupStore] using h
  simp [responderCompletion, storeRemove, hf]

/-- Claim C1 counterexample: a completion for id 5 on an empty store makes
the response dispatcher panic, refuting the claimed silent drop. -/
theorem unknown_completion_panics_cex :
    (responderCompletion [] ["*"] (.ok (.json .null)) 5).1 = .panicked := rfl

theorem unknown_completion_panics_witness :
    lookupStore [] 7 = none
    ∧ responderCompletion [] [] (.err .null) 7 = (.panicked, []) :=
  ⟨rfl, unknown_completion_panics [] [] (.err .null) 7 rfl⟩

/-- Claim C3: when the completion's exchange is found in the store, the
dispatcher responds with status 200 on success and 400 on error, and the
body is the JSON serialization of a structured success payload, the raw
bytes as-is, or the JSON serialization of the error value. -/
theorem completion_status_body (store : Store) (allowed_origins : List String)
    (response : InvokeResponse) (callback : Nat) (req : HttpRequest)
    (h : lookupStore store callback = some req) :
    ∃ resp, (startCompletion store allowed_origins response callback).1
        = .responded req resp
      ∧ resp.status = (match response with | .ok _ => 200 | .err _ => 400)
      ∧ resp.body = (match response with
          | .ok (.json v) => RespBody.ofString (Json.serialize v)
          | .ok (.raw b) => RespBody.ofData b
          | .err e => RespBody.ofString (Json.serialize e)) := by
  obtain ⟨p, hp, hp2⟩ :
      ∃ p, store.find? (fun q => q.1 == callback) = some p ∧ p.2 = req := by
    cases hfind : store.find? (fun q => q.1 == callback) with
    | none => simp [lookupStore, hfind] at h
    | some p => exact ⟨p, rfl, by simpa [lookupStore, hfind] using h⟩
  subst hp2
  have hrem : storeRemove store callback
      = (some p.2, store.filter (fun q => q.1 != callback)) := by
    simp [storeRemove, hp]
  cases response with
  | ok b =>
    cases b with
    | json v =>
      refine ⟨cors p.2 ((Response.from_string (Json.serialize v)).with_status_code 200)
        allowed_origins, ?_, ?_, ?_⟩
      · simp [startCompletion, hrem, exceptIsOk]
      · rw [cors_status]
        rfl
      · rw [cors_body]
        rfl
    | raw bytes =>
      refine ⟨cors p.2 ((Response.from_data bytes).with_status_code 200)
        allowed_origins, ?_, ?_, ?_⟩
      · simp [startCompletion, hrem, exceptIsOk]
      · rw [cors_status]
        rfl
      · rw [cors_body]
        rfl
  | err e =>
    refine ⟨cors p.2 ((Response.from_string (Json.serialize e)).with_status_code 400)
      allowed_origins, ?_, ?_, ?_⟩
    · simp [startCompletion, hrem, exceptIsOk]
    · rw [cors_status]
      rfl
    · rw [cors_body]
      rfl

theorem completion_status_body_witness :
    lookupStore [(1, demoPostRequest)] 1 = some demoPostRequest
    ∧ ∃ resp, (startCompletion [(1, demoPostRequest)] ["*"] (.err .null) 1).1
        = .responded demoPostRequest resp
      ∧ resp.status = 400
      ∧ resp.body = RespBody.ofString (Json.serialize .null) :=
  ⟨rfl, completion_status_body [(1, demoPostRequest)] ["*"] (.err .null) 1
    demoPostRequest rfl⟩

/-- Claim C4 (amended): a malformed request — envelope that does not
deserialize, a `Content-Type` other than `application/json`, or a missing
`Origin` header — is rejected before any exchange is stored and never
enters the correlation store, but the rejection is a panic that unwinds
the listener thread, so subsequent requests are no longer served. -/
theorem malformed_request_rejected (get_webview_window : String → Bool)
    (from_str : String → Option RecievedMessage)
    (url_parse : String → Option String)
    (allowed_origins : List String) (requests : Store)
    (request : HttpRequest) (rest : List HttpRequest) (lbl : String)
    (hm : request.method ≠ .options)
    (hp : (splitOnChar '/' request.url)[1]? = some lbl)
    (hw : get_webview_window lbl = true)
    (hbad : contentTypeOf request ≠ "application/json"
      ∨ originOf request = none
      ∨ from_str request.body = none) :
    handleRequest get_webview_window from_str url_parse allowed_origins
      requests request = { outcome := .panicked, store := requests }
    ∧ runListener get_webview_window from_str url_parse allowed_origins
      requests (request :: rest) = ([.panicked], requests) := by
  have h1 : handleRequest get_webview_window from_str url_parse allowed_origins
      requests request = { outcome := .panicked, store := requests } := by
    by_cases hct : (contentTypeOf request == "application/json") = true
    · rcases hbad with hb | hb | hb
      · exact absurd (by simpa using hct) hb
      · simp [handleRequest, hm, hp, hw, hct, hb]
      · cases ho : originOf request with
        | none => simp [handleRequest, hm, hp, hw, hct, ho]
        | some o => simp [handleRequest, hm, hp, hw, hct, ho, hb]
    · simp [handleRequest, hm, hp, hw, hct]
  refine ⟨h1, ?_⟩
  simp [runListener, h1]

/-- A request with an unsupported content type. -/
def demoBadCtRequest : HttpRequest :=
  { method := .post
    url := "/main"
    headers := [("Content-Type", "text/plain"), ("Origin", "http://tauri.localhost")]
    body := demoEnvelope }

/-- Claim C4 counterexample: a malformed request (unsupported content type)
followed by a well-formed `OPTIONS` request; the listener panics on the
first, so only one outcome is produced and the second request is never
served — the failure is not fatal for that request only. -/
theorem malformed_request_kills_listener_cex :
    runListener demoWindow demoParse demoUrlParse ["*"] []
      [demoBadCtRequest, demoOptionsRequest] = ([.panicked], []) := rfl

/-- A request lacking the `Origin` header. -/
def demoNoOriginRequest : HttpRequest :=
  { method := .post, url := "/main", headers := [], body := demoEnvelope }

theorem malformed_request_rejected_witness :
    demoNoOriginRequest.method ≠ .options
    ∧ (splitOnChar '/' demoNoOriginRequest.url)[1]? = some "main"
    ∧ demoWindow "main" = true
    ∧ (contentTypeOf demoNoOriginRequest ≠ "application/json"
      ∨ originOf demoNoOriginRequest = none
      ∨ demoParse demoNoOriginRequest.body = none)
    ∧ (handleRequest demoWindow demoParse demoUrlParse ["*"] []
        demoNoOriginRequest = { outcome := .panicked, store := [] }
      ∧ runListener demoWindow demoParse demoUrlParse ["*"] []
        (demoNoOriginRequest :: [demoOptionsRequest]) = ([.panicked], [])) :=
  ⟨by decide, by decide, by decide, Or.inr (Or.inl rfl),
    malformed_request_rejected demoWindow demoParse demoUrlParse ["*"] []
      demoNoOriginRequest [demoOptionsRequest] "main" (by decide) (by decide)
      (by decide) (Or.inr (Or.inl rfl))⟩

theorem getHeader_hashMapInsert (m : List (String × String)) (k v n : String) :
    getHeader (hashMapInsert m k v) n = if n = k then some v else getHeader m n := by
  unfold getHeader hashMapInsert
  rw [List.find?_append]
  by_cases h : n = k
  · subst h
    rw [find?_key_filtered]
    simp
  · rw [find?_other_key_filtered _ _ _ h]
    cases hf : m.find? (fun p => p.1 == n) with
    | some p => simp [hf, h]
    | none => simp [hf, h, Ne.symm h]

theorem getHeader_collect_aux (hs : List (String × String))
    (m : List (String × String)) (n : String) :
    getHeader (hs.foldl (fun m kv => hashMapInsert m kv.1 kv.2) m) n
      = match hs.reverse.find? (fun h => h.1 == n) with
        | some kv => some kv.2
        | none => getHeader m n := by
  induction hs generalizing m with
  | nil => rfl
  | cons kv tl ih =>
    rw [List.foldl_cons, ih]
    rw [List.reverse_cons, List.find?_append]
    cases hf : tl.reverse.find? (fun h => h.1 == n) with
    | some p => simp [hf]
    | none =>
      rw [getHeader_hashMapInsert]
      by_cases h : n = kv.1
      · simp [hf, h]
      · simp [hf, h, Ne.symm h]

theorem getHeader_collectHashMap (hs : List (String × String)) (n : String) :
    getHeader (collectHashMap hs) n
      = (hs.reverse.find? (fun h => h.1 == n)).map (fun h => h.2) := by
  unfold collectHashMap
  rw [getHeader_collect_aux]
  cases hf : hs.reverse.find? (fun h => h.1 == n) <;> simp [getHeader]

/-- Claim C8 (amended): the decoded invocation's header set is the
request's headers collected into a map keyed by the exact field-name
string, so every lookup yields the value of the last occurrence of that
exact name and earlier duplicate occurrences are not retained.  (The
collected map is then handed to the external case-insensitive header-map
conversion, which is outside this model.) -/
theorem decoded_headers_collapsed (get_webview_window : String → Bool)
    (from_str : String → Option RecievedMessage)
    (url_parse : String → Option String)
    (allowed_origins : List String) (requests : Store) (request : HttpRequest)
    (lbl o u : String) (m : RecievedMessage)
    (hm : request.method ≠ .options)
    (hp : (splitOnChar '/' request.url)[1]? = some lbl)
    (hw : get_webview_window lbl = true)
    (hct : contentTypeOf request = "application/json")
    (ho : originOf request = some o)
    (hP : from_str request.body = some m)
    (hU : url_parse o = some u) :
    ∃ inv, (handleRequest get_webview_window from_str url_parse allowed_origins
        requests request).outcome = .dispatched inv
      ∧ inv.headers = collectHashMap request.headers
      ∧ ∀ n, getHeader inv.headers n
          = (request.headers.reverse.find? (fun h => h.1 == n)).map
              (fun h => h.2) := by
  have hct' : (contentTypeOf request == "application/json") = true := by
    simp [hct]
  have hout : (handleRequest get_webview_window from_str url_parse allowed_origins
      requests request).outcome = .dispatched
        { cmd := m.cmd
          callback := m.callback
          error := m.error
          url := u
          body := .json m.payload
          headers := collectHashMap request.headers
          invoke_key := invokeKeyFixme } := by
    simp [handleRequest, hm, hp, hw, hct', ho, hP, hU]
  exact ⟨_, hout, rfl, fun n => getHeader_collectHashMap request.headers n⟩

/-- A request carrying two occurrences of the same header field. -/
def demoDupHeaderRequest : HttpRequest :=
  { method := .post
    url := "/main"
    headers := [("Origin", "http://tauri.localhost"), ("X-Custom", "1"), ("X-Custom", "2")]
    body := demoEnvelope }

/-- Claim C8 counterexample: a decoded request carrying `X-Custom: 1` and
`X-Custom: 2` yields an invocation whose header set no longer contains the
first occurrence — the header set does not preserve every header. -/
theorem decoded_headers_collapsed_cex :
    ∃ inv, (handleRequest demoWindow demoParse demoUrlParse ["*"] []
        demoDupHeaderRequest).outcome = .dispatched inv
      ∧ ("X-Custom", "1") ∈ demoDupHeaderRequest.headers
      ∧ ("X-Custom", "1") ∉ inv.headers :=
  ⟨_, rfl, by decide, by decide⟩

theorem decoded_headers_collapsed_witness :
    demoDupHeaderRequest.method ≠ .options
    ∧ (splitOnChar '/' demoDupHeaderRequest.url)[1]? = some "main"
    ∧ demoWindow "main" = true
    ∧ contentTypeOf demoDupHeaderRequest = "application/json"
    ∧ originOf demoDupHeaderRequest = some "http://tauri.localhost"
    ∧ demoParse demoDupHeaderRequest.body
        = some { cmd := "greet", callback := 1, error := 2, payload := .null }
    ∧ demoUrlParse "http://tauri.localhost" = some "http://tauri.localhost"
    ∧ (∃ inv, (handleRequest demoWindow demoParse demoUrlParse ["*"] []
          demoDupHeaderRequest).outcome = .dispatched inv
        ∧ inv.headers = collectHashMap demoDupHeaderRequest.headers
        ∧ ∀ n, getHeader inv.headers n
            = (demoDupHeaderRequest.headers.reverse.find? (fun h => h.1 == n)).map
                (fun h => h.2)) :=
  ⟨by decide, by decide, by decide, by decide, rfl, rfl, rfl,
    decoded_headers_collapsed demoWindow demoParse demoUrlParse ["*"] []
      demoDupHeaderRequest "main" "http://tauri.localhost" "http://tauri.localhost"
      { cmd := "greet", callback := 1, error := 2, payload := .null }
      (by decide) (by decide) (by decide) (by decide) rfl rfl rfl⟩

/-- Claim C10: content-type selection is exact string equality — a request
with no `Content-Type` header is decoded as `application/json`, while any
other exact value (including `application/json; charset=utf-8`) takes the
unsupported-decoding branch, which panics and never produces an invocation
record. -/
theorem content_type_exact_match (get_webview_window : String → Bool)
    (from_str : String → Option RecievedMessage)
    (url_parse : String → Option String)
    (allowed_origins : List String) (requests : Store) (request : HttpRequest)
    (lbl : String)
    (hm : request.method ≠ .options)
    (hp : (splitOnChar '/' request.url)[1]? = some lbl)
    (hw : get_webview_window lbl = true) :
    (request.headers.find? (fun h => fieldEquiv h.1 "Content-Type") = none →
      contentTypeOf request = "application/json")
    ∧ (∀ v, (request.headers.find? (fun h => fieldEquiv h.1 "Content-Type")).map
          (fun h => h.2) = some v →
        v ≠ "application/json" →
        (handleRequest get_webview_window from_str url_parse allowed_origins
          requests request).outcome = .panicked
        ∧ (handleRequest get_webview_window from_str url_parse allowed_origins
          requests request).store = requests) := by
  constructor
  · intro hnone
    simp [contentTypeOf, hnone]
  · intro v hv hne
    have hct : (contentTypeOf request == "application/json") = false := by
      simp [contentTypeOf, hv, hne]
    constructor <;> simp [handleRequest, hm, hp, hw, hct]

/-- A request whose content type carries a charset parameter. -/
def demoCharsetRequest : HttpRequest :=
  { method := .post
    url := "/main"
    headers := [("Content-Type", "application/json; charset=utf-8"),
                ("Origin", "http://tauri.localhost")]
    body := demoEnvelope }

theorem content_type_exact_match_witness :
    demoCharsetRequest.method ≠ .options
    ∧ (splitOnChar '/' demoCharsetRequest.url)[1]? = some "main"
    ∧ demoWindow "main" = true
    ∧ ((demoCharsetRequest.headers.find? (fun h => fieldEquiv h.1 "Content-Type") = none →
        contentTypeOf demoCharsetRequest = "application/json")
      ∧ (∀ v, (demoCharsetRequest.headers.find? (fun h => fieldEquiv h.1 "Content-Type")).map
            (fun h => h.2) = some v →
          v ≠ "application/json" →
          (handleRequest demoWindow demoParse demoUrlParse ["*"] []
            demoCharsetRequest).outcome = .panicked
          ∧ (handleRequest demoWindow demoParse demoUrlParse ["*"] []
            demoCharsetRequest).store = [])) :=
  ⟨by decide, by decide, by decide,
    content_type_exact_match demoWindow demoParse demoUrlParse ["*"] []
      demoCharsetRequest "main" (by decide) (by decide) (by decide)⟩

end TauriInvokeHttp
